import Mathlib

/-!
# Verification of the scheduling-information extraction pipeline

Shallow embedding of `extract_scheduling_info` from `src/app/ai_analysis.py`
(repository Speak-Note), together with the regex scanning it performs and the
surrounding error-handling boundary.

Modelling conventions:
* Instants (`datetime` values) are integers counting seconds; `timedelta(days=1)`
  is the constant `oneDay = 86400`.
* `confidence` is a rational number.  The Python code only ever computes the
  float values `0.0`, `0.3`, `0.5 + 0.3 = 0.8` and `0.8 + 0.2`; IEEE doubles are
  exact on this chain (`double(0.5) + double(0.3)` rounds to `double(0.8)`, and
  `double(0.8) + double(0.2)` rounds to `1.0`), so the rational model computes
  exactly the same observable values.
* The external capabilities (pytz, dateparser, spaCy) are parameters collected
  in an `Env`:  `pytz.timezone` is a partial map (raising = `none`),
  `dateparser.parse` returns `Option` (the code drops a raising parse via its
  inner `try/except: continue`, which is observationally `none`), and the
  spaCy pipeline returns `Except String NlpDoc`, error modelling a thrown
  exception — the one fault source inside the outer `try` of the function.
* The regex fragments the code uses (`\b`, `\d{1,2}[slash or dash]\d{1,2}[slash or dash]\d{2,4}`,
  the three time patterns, `\b<word>\b` whole-word search) are determinised
  faithfully, including the backtracking of `\s*(am|pm)?\b`.
* Match spans (`start`/`end` offsets) recorded by the Python code are never
  read by any downstream consumer, so candidates carry only matched text and
  resolved date.
-/

namespace SpeakNote

/-! ## Character classes (Python `re` semantics, ASCII fragment) -/

/-- Python `\w`: letters, digits and underscore (ASCII fragment). -/
def isWordChar (c : Char) : Bool :=
  c.isAlphanum || c == '_'

/-- Python `\s` (ASCII fragment). -/
def isSpaceChar (c : Char) : Bool :=
  c == ' ' || c == '\t' || c == '\n' || c == '\r' || c == '\x0b' || c == '\x0c'

/-- The separator class `[slash or dash]` of the numeric date pattern. -/
def sepChar (c : Char) : Bool :=
  c == '/' || c == '-'

/-- Word-character test on an optional character; out-of-string counts as
non-word, which is how `\b` treats the string edges. -/
def wordAt : Option Char → Bool
  | some c => isWordChar c
  | none => false

/-- Python `str.lower()` applied characterwise (ASCII fragment). -/
def lowerChars (s : String) : List Char :=
  s.toList.map Char.toLower

/-! ## Elementary scanners -/

/-- Length of the maximal digit run at the head of the list. -/
def digitRun : List Char → Nat
  | c :: cs => if c.isDigit then digitRun cs + 1 else 0
  | [] => 0

/-- Length of the maximal whitespace run at the head of the list. -/
def spaceRun : List Char → Nat
  | c :: cs => if isSpaceChar c then spaceRun cs + 1 else 0
  | [] => 0

/-- Holds when `pat` is a prefix of `s` (literal character match). -/
def startsWithC : List Char → List Char → Bool
  | [], _ => true
  | _ :: _, [] => false
  | p :: ps, c :: cs => p == c && startsWithC ps cs

/-- Whole-word match: `\b pat \b` matches exactly at the current position, where `prev` is the
character immediately before the position (`none` at the start of the text).
Both `\b`s follow Python semantics: a boundary is a position whose two
neighbouring characters (string edge = non-word) differ in word-ness. -/
def matchesWordAt (pat : List Char) (prev : Option Char) (s : List Char) : Bool :=
  match pat with
  | [] => false
  | h :: t =>
    (isWordChar h != wordAt prev) && startsWithC (h :: t) s &&
      (isWordChar ((h :: t).getLastD h) != wordAt ((s.drop (h :: t).length).head?))

/-- Model of `re.search` for the word-bounded escaped pattern, viewed as a
Boolean: some position of `s` matches `\b pat \b`. -/
def foundWord (pat : List Char) : Option Char → List Char → Bool
  | prev, [] => matchesWordAt pat prev []
  | prev, c :: cs => matchesWordAt pat prev (c :: cs) || foundWord pat (some c) cs

/-! ## `re.finditer` driver

A matcher takes the previous character (for `\b`) and the current suffix and
returns the length of the match anchored there, if any.  `scanAux` replays
`finditer`: try each position left to right, emit non-overlapping matches,
resume after each match.  Every pattern below matches at least one character,
so consuming `max L 1` characters is the exact Python behaviour while making
termination and non-emptiness of emitted matches structural. -/

def scanAux (m : Option Char → List Char → Option Nat) :
    Nat → Option Char → List Char → List (List Char)
  | 0, _, _ => []
  | _ + 1, _, [] => []
  | fuel + 1, prev, c :: cs =>
    match m prev (c :: cs) with
    | some L =>
      let t := (c :: cs).take (max L 1)
      t :: scanAux m fuel t.getLast? ((c :: cs).drop (max L 1))
    | none => scanAux m fuel (some c) cs

/-- All matches of `m` over `s`, in text order (`re.finditer`).  Each step of
`scanAux` consumes at least one character, so `s.length` fuel is exact. -/
def scanMatches (m : Option Char → List Char → Option Nat) (s : List Char) :
    List (List Char) :=
  scanAux m s.length none s

/-! ## The absolute date pattern `\b\d{1,2}[slash or dash]\d{1,2}[slash or dash]\d{2,4}\b`

Determinisation of the greedy match with backtracking: a digit run of length
three or more can never satisfy `\d{1,2}` followed by a separator, and the
final `\d{2,4}\b` fails whenever the run exceeds four digits or the character
after the run is a word character. -/

def absMatch (prev : Option Char) (s : List Char) : Option Nat :=
  match s.head? with
  | none => none
  | some c =>
    if !c.isDigit || wordAt prev then none
    else
      let n1 := digitRun s
      if 1 ≤ n1 ∧ n1 ≤ 2 then
        match (s.drop n1).head? with
        | some c1 =>
          if sepChar c1 then
            let s2 := s.drop (n1 + 1)
            let n2 := digitRun s2
            if 1 ≤ n2 ∧ n2 ≤ 2 then
              match (s2.drop n2).head? with
              | some c2 =>
                if sepChar c2 then
                  let s3 := s2.drop (n2 + 1)
                  let n3 := digitRun s3
                  if 2 ≤ n3 ∧ n3 ≤ 4 then
                    if wordAt ((s3.drop n3).head?) then none
                    else some (n1 + 1 + n2 + 1 + n3)
                  else none
                else none
              | none => none
            else none
          else none
        | none => none
      else none

/-! ## The three time patterns, searched over the lower-cased text -/

/-- Matches `(am|pm)` followed by `\b` at the current position. -/
def amPmAt (s : List Char) : Bool :=
  match s with
  | a :: m :: rest => (a == 'a' || a == 'p') && m == 'm' && !wordAt rest.head?
  | _ => false

/-- Backtracking tail `\s*(am|pm)?\b` after the minutes of pattern 1.  The
engine first tries the greedy space run `k`, preferring `(am|pm)` over the
empty alternative, then backtracks the run.  `k' == 0` means the character
before the position is the last minute digit (a word character); otherwise it
is a space (non-word). -/
def tailTry (s3 : List Char) : Nat → Option Nat
  | 0 =>
    if amPmAt s3 then some 2
    else if !wordAt s3.head? then some 0
    else none
  | k'' + 1 =>
    let s' := s3.drop (k'' + 1)
    if amPmAt s' then some (k'' + 1 + 2)
    else if wordAt s'.head? then some (k'' + 1)
    else tailTry s3 k''

/-- Pattern 1: `\b(\d{1,2}):(\d{2})\s*(am|pm)?\b`. -/
def timeMatch1 (prev : Option Char) (s : List Char) : Option Nat :=
  match s.head? with
  | none => none
  | some c =>
    if !c.isDigit || wordAt prev then none
    else
      let r := digitRun s
      let n1? : Option Nat :=
        if r == 2 && ((s.drop 2).head? == some ':') then some 2
        else if r == 1 && ((s.drop 1).head? == some ':') then some 1
        else none
      match n1? with
      | none => none
      | some n1 =>
        let s2 := s.drop (n1 + 1)
        if 2 ≤ digitRun s2 then
          let s3 := s2.drop 2
          match tailTry s3 (spaceRun s3) with
          | some extra => some (n1 + 1 + 2 + extra)
          | none => none
        else none

/-- Pattern 2: `\b(\d{1,2})\s*(am|pm)\b`.  Backtracking is vacuous here: a
run of three or more digits can never leave `\s*(am|pm)` matchable, and a
shortened space run would put a space in front of the mandatory `(am|pm)`. -/
def timeMatch2 (prev : Option Char) (s : List Char) : Option Nat :=
  match s.head? with
  | none => none
  | some c =>
    if !c.isDigit || wordAt prev then none
    else
      let r := digitRun s
      if 1 ≤ r ∧ r ≤ 2 then
        let s2 := s.drop r
        let k := spaceRun s2
        if amPmAt (s2.drop k) then some (r + k + 2) else none
      else none

/-- The named-period vocabulary, in alternation order. -/
def periodWords : List String :=
  ["morning", "afternoon", "evening", "night", "noon", "midnight"]

/-- First alternative of a `\b(w₁|…|wₙ)\b` alternation matching here. -/
def firstWordMatch (prev : Option Char) (s : List Char) : List String → Option Nat
  | [] => none
  | w :: ws =>
    if matchesWordAt w.toList prev s then some w.toList.length
    else firstWordMatch prev s ws

/-- Pattern 3: `\b(morning|afternoon|evening|night|noon|midnight)\b`. -/
def timeMatch3 (prev : Option Char) (s : List Char) : Option Nat :=
  firstWordMatch prev s periodWords

/-- The `time_entities` list: all matches of the three patterns, pattern-table
order first, text order within a pattern. -/
def timeEntities (lower : List Char) : List (List Char) :=
  scanMatches timeMatch1 lower ++ scanMatches timeMatch2 lower ++
    scanMatches timeMatch3 lower

/-! ## Relative-date vocabulary -/

/-- One day, the `timedelta(days=1)` of the source, in seconds. -/
def oneDay : Int := 86400

/-- The `tomorrow_variants` list, in source order. -/
def tomorrowVariants : List String :=
  ["tomorrow", "tommorow", "tomorow", "tomoroww", "tommorrow", "tmrw", "tmr",
   "tmrw.", "tmr.", "tmorrow"]

/-- The `relative_date_patterns` dict; Python dicts preserve insertion order,
so iteration visits entries in exactly this sequence. -/
def relativeVocab (now : Int) : List (String × Int) :=
  ("today", now) :: tomorrowVariants.map (fun v => (v, now + oneDay)) ++
    [("yesterday", now - oneDay), ("yesturday", now - oneDay),
     ("next week", now + 7 * oneDay), ("next month", now + 30 * oneDay)]

/-- Model of `re.search` for a word-bounded escaped string pattern over the
lower-cased text. -/
def foundWordS (pat : String) (lower : List Char) : Bool :=
  foundWord pat.toList none lower

/-- The relative pass: every vocabulary entry found as a whole word in the
lower-cased text, in vocabulary order (not text order). -/
def relativeMatches (now : Int) (lower : List Char) : List (String × Int) :=
  (relativeVocab now).filter (fun p => foundWordS p.1 lower)

/-- The absolute pass: `finditer` of the numeric pattern over the original
text, each match handed to the external date parser, unparsable ones dropped. -/
def absoluteMatches (parse : String → Option Int) (text : String) :
    List (String × Int) :=
  (scanMatches absMatch text.toList).filterMap
    (fun m => match parse (String.mk m) with
      | some d => some (String.mk m, d)
      | none => none)

/-- The `date_entities` list: absolute-pass matches then relative-pass
matches. -/
def dateEntities (parse : String → Option Int) (text : String) (now : Int) :
    List (String × Int) :=
  absoluteMatches parse text ++ relativeMatches now (lowerChars text)

/-! ## External NLP output and title synthesis -/

/-- A spaCy token: surface text and coarse part-of-speech tag. -/
structure Token where
  text : String
  pos : String
deriving DecidableEq

/-- A spaCy entity span: surface text and entity label. -/
structure SpanEnt where
  text : String
  label : String
deriving DecidableEq

/-- The relevant part of a spaCy `Doc`. -/
structure NlpDoc where
  tokens : List Token
  ents : List SpanEnt
deriving DecidableEq

/-- Tokens tagged common or proper noun: `[token.text for token in doc if token.pos_ in ["NOUN", "PROPN"]]`. -/
def nounsOf (doc : NlpDoc) : List String :=
  (doc.tokens.filter (fun t => t.pos == "NOUN" || t.pos == "PROPN")).map Token.text

/-- Person entities: `[ent.text for ent in doc.ents if ent.label_ == "PERSON"]`. -/
def peopleOf (doc : NlpDoc) : List String :=
  (doc.ents.filter (fun e => e.label == "PERSON")).map SpanEnt.text

/-- Place entities: `[ent.text for ent in doc.ents if ent.label_ in ["GPE", "LOC"]]`. -/
def placesOf (doc : NlpDoc) : List String :=
  (doc.ents.filter (fun e => e.label == "GPE" || e.label == "LOC")).map SpanEnt.text

/-- Python `sep.join(parts)`. -/
def joinSep (sep : String) : List String → String
  | [] => ""
  | [x] => x
  | x :: y :: xs => x ++ sep ++ joinSep sep (y :: xs)

/-! ## Result shapes -/

/-- The `entities` dict of the successful return value (its `dates` and
`times` keys are always the literal empty lists in the source). -/
structure Entities where
  dates : List String
  times : List String
  people : List String
  places : List String
deriving DecidableEq

/-- The dict returned on the normal path. -/
structure OkResult where
  suggested_title : String
  detected_date : Option Int
  detected_time : Option String
  confidence : ℚ
  entities : Entities
deriving DecidableEq

/-- The dict returned by the `except` branch. -/
structure ErrResult where
  detected_date : Option Int
  detected_time : Option String
  confidence : ℚ
  extracted_text : String
  suggested_title : Option String
  error : String
deriving DecidableEq

/-- The caller always receives one of the two dict shapes, never an
exception. -/
inductive ExtractResult where
  | ok (r : OkResult)
  | err (r : ErrResult)
deriving DecidableEq

/-- The `confidence` entry of either result shape. -/
def resultConfidence : ExtractResult → ℚ
  | .ok r => r.confidence
  | .err r => r.confidence

/-- The keys that can occur in either returned dict. -/
inductive FieldKey where
  | suggested_title | detected_date | detected_time | confidence | entities
  | extracted_text | error
deriving DecidableEq

/-- Key presence in the returned dict, per shape. -/
def hasField : ExtractResult → FieldKey → Bool
  | .ok _, k =>
    match k with
    | .suggested_title | .detected_date | .detected_time | .confidence
    | .entities => true
    | _ => false
  | .err _, k =>
    match k with
    | .entities => false
    | _ => true

/-! ## External capabilities -/

/-- The external capabilities `extract_scheduling_info` consumes.  `pytz_tab`
returns `none` exactly when `pytz.timezone` raises; `now_in` is
`datetime.now` for a resolved zone (`none` = the local-timezone fallback);
`parse_date` is `dateparser.parse` (a raise inside the inner
`try/except: continue` is observationally `none`); `nlp` is the spaCy
pipeline, whose `Except.error` models a thrown exception reaching the outer
`try`. -/
structure Env where
  pytz_tab : String → Option Int
  now_in : Option Int → Int
  parse_date : String → Option Int
  nlp : String → Except String NlpDoc

/-- The timezone-resolution block: `tz = None; if user_timezone: try tz =
pytz.timezone(user_timezone) except: tz = None; if not tz: tz = local`.
`none` stands for the local-timezone fallback.  An empty hint is falsy in
Python and skips the lookup. -/
def resolve_tz (env : Env) (user_timezone : Option String) : Option Int :=
  match user_timezone with
  | none => none
  | some u => if u.isEmpty then none else env.pytz_tab u

/-- Truthiness of `scheduling_info["detected_date"]`: `None` is falsy, a
`datetime` is always truthy. -/
def pyTruthyDate : Option Int → Bool
  | some _ => true
  | none => false

/-- Truthiness of `scheduling_info["detected_time"]`: `None` and the empty
string are falsy. -/
def pyTruthyText : Option (List Char) → Bool
  | some l => !l.isEmpty
  | none => false

/-! ## The extraction function -/

/-- Body of `extract_scheduling_info` after the spaCy pipeline succeeded with
`doc` — the straight-line code of the `try` block. -/
def extract_ok (env : Env) (text : String) (user_timezone : Option String)
    (doc : NlpDoc) : OkResult :=
  let now := env.now_in (resolve_tz env user_timezone)
  let lower := lowerChars text
  let dates := dateEntities env.parse_date text now
  let times := timeEntities lower
  let detected_date : Option Int := dates.head?.map Prod.snd
  let detected_time_raw : Option (List Char) := times.head?
  let conf0 : ℚ :=
    (if dates.isEmpty then 0 else 1/2) + (if times.isEmpty then 0 else 3/10)
  let conf : ℚ :=
    if pyTruthyDate detected_date && pyTruthyText detected_time_raw then
      min 1 (conf0 + 1/5)
    else conf0
  let nouns := nounsOf doc
  let core : Option String :=
    if nouns.isEmpty then none else some (joinSep (" ") (nouns.take 3))
  let people := peopleOf doc
  let places := placesOf doc
  let title_parts : List String :=
    (match core with | some t => [t] | none => []) ++
      (if people.isEmpty then [] else ["with " ++ joinSep (", ") people]) ++
      (if places.isEmpty then [] else ["at " ++ joinSep (", ") places])
  let final_title := if title_parts.isEmpty then "Reminder" else joinSep (" ") title_parts
  { suggested_title := final_title
    detected_date := detected_date
    detected_time := detected_time_raw.map (fun l => String.mk l)
    confidence := conf
    entities := { dates := [], times := [], people := people, places := places } }

/-- Top level of `extract_scheduling_info(text, user_timezone)`: the outer `try/except`
boundary.  A fault (the spaCy pipeline throwing) yields the fallback dict of
the `except` branch. -/
def extract_scheduling_info (env : Env) (text : String)
    (user_timezone : Option String) : ExtractResult :=
  match env.nlp text with
  | .ok doc => .ok (extract_ok env text user_timezone doc)
  | .error e =>
    .err { detected_date := none, detected_time := none, confidence := 0,
           extracted_text := text, suggested_title := none, error := e }

/-! ## Concrete environments for witnesses and counterexamples -/

/-- A benign concrete environment: no valid timezone, anchor instant `0`, a
date parser that never parses, and an NLP capability returning an empty
document. -/
def cenvOk : Env where
  pytz_tab := fun _ => none
  now_in := fun _ => 0
  parse_date := fun _ => none
  nlp := fun _ => .ok ⟨[], []⟩

/-- Like `cenvOk`, but the NLP capability throws on every input. -/
def cenvBad : Env where
  pytz_tab := fun _ => none
  now_in := fun _ => 0
  parse_date := fun _ => none
  nlp := fun _ => .error ("spacy pipeline failure")

/-- Like `cenvOk`, but the date parser accepts exactly the string `1/2/23`,
resolving it to the instant `999`. -/
def cenvParse : Env where
  pytz_tab := fun _ => none
  now_in := fun _ => 0
  parse_date := fun s => if s = ("1/2/23") then some 999 else none
  nlp := fun _ => .ok ⟨[], []⟩

/-! ## Helper lemmas -/

/-- Every match emitted by the `finditer` driver is a non-empty character
list: each emitted segment starts with the character heading the suffix it
was matched at. -/
theorem mem_scanAux_ne_nil (m : Option Char → List Char → Option Nat) :
    ∀ (fuel : Nat) (prev : Option Char) (s : List Char) (x : List Char),
      x ∈ scanAux m fuel prev s → x ≠ [] := by
  intro fuel
  induction fuel with
  | zero => intro prev s x hx; simp [scanAux] at hx
  | succ n ih =>
    intro prev s x hx
    cases s with
    | nil => simp [scanAux] at hx
    | cons c cs =>
      cases hm : m prev (c :: cs) with
      | some L =>
        simp only [scanAux, hm, List.mem_cons] at hx
        rcases hx with h | h
        · have hmax : max L 1 = (max L 1 - 1) + 1 := by omega
          rw [hmax] at h
          simp [List.take_succ_cons] at h
          simp [h]
        · exact ih _ _ _ h
      | none =>
        simp only [scanAux, hm] at hx
        exact ih _ _ _ hx

/-- Every `time_entities` entry has non-empty matched text. -/
theorem mem_timeEntities_ne_nil (lower : List Char) (x : List Char)
    (hx : x ∈ timeEntities lower) : x ≠ [] := by
  simp only [timeEntities, scanMatches, List.mem_append] at hx
  rcases hx with (h | h) | h <;> exact mem_scanAux_ne_nil _ _ _ _ _ h

/-- A non-empty whole-word pattern never matches inside the empty text. -/
theorem matchesWordAt_nil (pat : List Char) (prev : Option Char) :
    matchesWordAt pat prev [] = false := by
  cases pat with
  | nil => rfl
  | cons h t => simp [matchesWordAt, startsWithC]

/-- Whole-word search over the empty text fails. -/
theorem foundWord_nil (pat : List Char) (prev : Option Char) :
    foundWord pat prev [] = false := by
  simp [foundWord, matchesWordAt_nil]

/-- The relative pass finds nothing in the empty text. -/
theorem relativeMatches_nil (now : Int) :
    relativeMatches now [] = [] := by
  simp [relativeMatches, List.filter_eq_nil_iff, foundWordS, foundWord_nil]

/-- The date candidates of the empty input are empty, whatever the external
date parser does. -/
theorem dateEntities_empty (parse : String → Option Int) (now : Int) :
    dateEntities parse ("") now = [] := by
  simp [dateEntities, absoluteMatches, scanMatches, scanAux, relativeMatches,
    List.filter_eq_nil_iff, foundWordS, foundWord_nil, lowerChars]

/-- Case form of the confidence computation on the normal path: the score is
determined by which of the two candidate lists are non-empty, and the joint
case lands exactly on `1` because `1/2 + 3/10 + 1/5 = 1`. -/
theorem extract_ok_confidence_eq (env : Env) (text : String)
    (tz : Option String) (doc : NlpDoc) :
    (extract_ok env text tz doc).confidence =
      (if (dateEntities env.parse_date text (env.now_in (resolve_tz env tz))).isEmpty
        then (if (timeEntities (lowerChars text)).isEmpty then 0 else 3/10)
        else (if (timeEntities (lowerChars text)).isEmpty then (1:ℚ)/2 else 1)) := by
  rcases hd : dateEntities env.parse_date text (env.now_in (resolve_tz env tz)) with
    _ | ⟨d, ds⟩ <;>
    rcases ht : timeEntities (lowerChars text) with _ | ⟨t, ts⟩ <;>
    simp [extract_ok, hd, ht, pyTruthyDate, pyTruthyText]
  · have htne : t ≠ [] :=
      mem_timeEntities_ne_nil _ t (ht ▸ List.mem_cons_self t ts)
    rcases List.exists_cons_of_ne_nil htne with ⟨c, t', rfl⟩
    rw [if_neg htne]
    norm_num [min_eq_left]

/-! ## Claim theorems -/

/-- Claim C1: for every input string and timezone hint, the `confidence`
field of the result of `extract_scheduling_info` lies in `[0, 1]`, on both
the normal path and the exception path. -/
theorem extract_confidence_in_unit_interval (env : Env) (text : String)
    (tz : Option String) :
    0 ≤ resultConfidence (extract_scheduling_info env text tz) ∧
      resultConfidence (extract_scheduling_info env text tz) ≤ 1 := by
  cases hnlp : env.nlp text with
  | error e => simp [extract_scheduling_info, hnlp, resultConfidence]
  | ok doc =>
    simp only [extract_scheduling_info, hnlp, resultConfidence]
    rw [extract_ok_confidence_eq]
    split_ifs <;> norm_num

/-- Claim C2: for every input string and timezone hint,
`extract_scheduling_info` never raises: the caller always receives a result
value, of one of the two dict shapes. -/
theorem extract_never_raises (env : Env) (text : String) (tz : Option String) :
    (∃ r : OkResult, extract_scheduling_info env text tz = .ok r) ∨
      (∃ r : ErrResult, extract_scheduling_info env text tz = .err r) := by
  cases hnlp : env.nlp text with
  | ok doc =>
    exact .inl ⟨extract_ok env text tz doc, by simp [extract_scheduling_info, hnlp]⟩
  | error e =>
    exact .inr ⟨{ detected_date := none, detected_time := none, confidence := 0,
                  extracted_text := text, suggested_title := none, error := e },
      by simp [extract_scheduling_info, hnlp]⟩

/-- Claim C3, counterexample: on the fault path the returned dict has no
`entities` key at all, so the claimed field set does not hold for every
input. -/
theorem fault_result_lacks_entities_field :
    hasField (extract_scheduling_info cenvBad ("call mom") none)
      FieldKey.entities = false := rfl

/-- Claim C3, amended: on the normal path the result carries
`suggested_title`, `detected_date`, `detected_time`, `confidence` and
`entities`; on the fault path the result is the fallback dict with detection
fields absent, confidence `0.0` and a diagnostic `error` field — but no
`entities` field. -/
theorem extract_result_field_sets (env : Env) (text : String)
    (tz : Option String) :
    (∀ doc : NlpDoc, env.nlp text = .ok doc →
      hasField (extract_scheduling_info env text tz) FieldKey.suggested_title = true ∧
      hasField (extract_scheduling_info env text tz) FieldKey.detected_date = true ∧
      hasField (extract_scheduling_info env text tz) FieldKey.detected_time = true ∧
      hasField (extract_scheduling_info env text tz) FieldKey.confidence = true ∧
      hasField (extract_scheduling_info env text tz) FieldKey.entities = true) ∧
    (∀ e : String, env.nlp text = .error e →
      extract_scheduling_info env text tz =
        .err { detected_date := none, detected_time := none, confidence := 0,
               extracted_text := text, suggested_title := none, error := e } ∧
      hasField (extract_scheduling_info env text tz) FieldKey.entities = false) := by
  constructor
  · intro doc hdoc
    simp [extract_scheduling_info, hdoc, hasField]
  · intro e he
    simp [extract_scheduling_info, he, hasField]

/-- Witness for C3 amended, at concrete environments for both branches. -/
theorem extract_result_field_sets_witness :
    hasField (extract_scheduling_info cenvOk ("call mom") none)
        FieldKey.entities = true ∧
      extract_scheduling_info cenvBad ("call mom") none =
        .err { detected_date := none, detected_time := none, confidence := 0,
               extracted_text := "call mom", suggested_title := none,
               error := "spacy pipeline failure" } :=
  ⟨((extract_result_field_sets cenvOk ("call mom") none).1 ⟨[], []⟩ rfl).2.2.2.2,
   ((extract_result_field_sets cenvBad ("call mom") none).2
      ("spacy pipeline failure") rfl).1⟩

/-- Claim C4: on the normal path, `confidence` equals the clamped sum of a
fixed `+0.5` if at least one date candidate was accepted, `+0.3` if at least
one time match was found, and a `+0.2` joint bonus when both were found; no
other feature of the input enters the score. -/
theorem extract_confidence_is_clamped_sum (env : Env) (text : String)
    (tz : Option String) (doc : NlpDoc) :
    (extract_ok env text tz doc).confidence =
      max 0 (min 1
        ((if dateEntities env.parse_date text (env.now_in (resolve_tz env tz)) ≠ []
            then (1:ℚ)/2 else 0) +
         (if timeEntities (lowerChars text) ≠ [] then 3/10 else 0) +
         (if dateEntities env.parse_date text (env.now_in (resolve_tz env tz)) ≠ [] ∧
             timeEntities (lowerChars text) ≠ []
            then 1/5 else 0))) := by
  rw [extract_ok_confidence_eq]
  rcases hd : dateEntities env.parse_date text (env.now_in (resolve_tz env tz)) with
    _ | ⟨d, ds⟩ <;>
    rcases ht : timeEntities (lowerChars text) with _ | ⟨t, ts⟩ <;>
    simp [List.cons_ne_nil] <;>
    norm_num [max_def, min_def]

/-- Claim C10: on the normal path, `confidence` only takes the values `0`,
`0.3`, `0.5` or `1`; the intermediate sum `0.8` is never returned, because
the `+0.2` joint bonus is added whenever both a date and a time were found. -/
theorem extract_confidence_quantized (env : Env) (text : String)
    (tz : Option String) (doc : NlpDoc) :
    ((extract_ok env text tz doc).confidence = 0 ∨
     (extract_ok env text tz doc).confidence = 3/10 ∨
     (extract_ok env text tz doc).confidence = 1/2 ∨
     (extract_ok env text tz doc).confidence = 1) ∧
    (extract_ok env text tz doc).confidence ≠ 4/5 := by
  rw [extract_ok_confidence_eq]
  split_ifs <;> norm_num

/-- Claim C5: for the empty input, the result has `detected_date` and
`detected_time` null, confidence exactly `0`, and `suggested_title` the
literal `"Reminder"`.  The external NLP capability is assumed to return an
empty document for the empty text, as spaCy does. -/
theorem empty_input_result (env : Env) (tz : Option String) (doc : NlpDoc)
    (hnlp : env.nlp ("") = .ok doc) (htok : doc.tokens = [])
    (hent : doc.ents = []) :
    extract_scheduling_info env ("") tz =
      .ok { suggested_title := "Reminder", detected_date := none,
            detected_time := none, confidence := 0,
            entities := { dates := [], times := [], people := [], places := [] } } := by
  have hdates := dateEntities_empty env.parse_date (env.now_in (resolve_tz env tz))
  have htimes : timeEntities (lowerChars ("")) = [] := rfl
  simp only [extract_scheduling_info, hnlp]
  simp [extract_ok, hdates, htimes, nounsOf, peopleOf, placesOf, htok, hent,
    pyTruthyDate]

/-- Witness for C5 at a concrete environment with an empty document. -/
theorem empty_input_result_witness :
    extract_scheduling_info cenvOk ("") none =
      .ok { suggested_title := "Reminder", detected_date := none,
            detected_time := none, confidence := 0,
            entities := { dates := [], times := [], people := [], places := [] } } :=
  empty_input_result cenvOk none ⟨[], []⟩ rfl rfl rfl

/-- Claim C6: `detected_date` is the resolved instant of the head of the
single candidate sequence, which is all absolute-pass matches (in text
order) followed by all relative-pass matches (in vocabulary-table order);
consequently, whenever the absolute pass accepted any candidate, the
absolute date is selected, regardless of relative phrases occurring earlier
in the text. -/
theorem date_selection_policy (env : Env) (text : String) (tz : Option String)
    (doc : NlpDoc) :
    ((extract_ok env text tz doc).detected_date =
        (dateEntities env.parse_date text
          (env.now_in (resolve_tz env tz))).head?.map Prod.snd) ∧
    (dateEntities env.parse_date text (env.now_in (resolve_tz env tz)) =
        absoluteMatches env.parse_date text ++
          relativeMatches (env.now_in (resolve_tz env tz)) (lowerChars text)) ∧
    (absoluteMatches env.parse_date text ≠ [] →
      (extract_ok env text tz doc).detected_date =
        (absoluteMatches env.parse_date text).head?.map Prod.snd) := by
  refine ⟨rfl, rfl, ?_⟩
  intro habs
  rcases ha : absoluteMatches env.parse_date text with _ | ⟨a, as⟩
  · exact absurd ha habs
  · have h1 : (extract_ok env text tz doc).detected_date =
        (dateEntities env.parse_date text
          (env.now_in (resolve_tz env tz))).head?.map Prod.snd := rfl
    rw [h1]
    simp [dateEntities, ha]

/-- Witness for C6: in `tomorrow 1/2/23` the relative phrase appears first
in the text, yet the later absolute date (resolved to `999` by the parser)
is selected. -/
theorem date_selection_policy_witness :
    absoluteMatches cenvParse.parse_date ("tomorrow 1/2/23") ≠ [] ∧
    foundWord (("tomorrow").toList) none (lowerChars ("tomorrow 1/2/23")) = true ∧
    (extract_ok cenvParse ("tomorrow 1/2/23") none ⟨[], []⟩).detected_date =
      some 999 := by
  refine ⟨by decide, by decide, ?_⟩
  have h := (date_selection_policy cenvParse ("tomorrow 1/2/23") none
    ⟨[], []⟩).2.2 (by decide)
  rw [h]
  decide

/-- Claim C7: a timezone hint that names no valid zone does not raise; the
resolution step falls back to the local timezone and the rest of the
extraction proceeds exactly as with no hint at all. -/
theorem invalid_timezone_falls_back (env : Env) (text : String) (hint : String)
    (h : env.pytz_tab hint = none) :
    resolve_tz env (some hint) = none ∧
    extract_scheduling_info env text (some hint) =
      extract_scheduling_info env text none := by
  have hres : resolve_tz env (some hint) = none := by
    simp [resolve_tz, h]
  refine ⟨hres, ?_⟩
  cases hnlp : env.nlp text with
  | error e => simp [extract_scheduling_info, hnlp]
  | ok doc =>
    simp only [extract_scheduling_info, hnlp]
    have hok : extract_ok env text (some hint) doc = extract_ok env text none doc := by
      have h2 : resolve_tz env none = none := rfl
      simp only [extract_ok, hres, h2]
    rw [hok]

/-- Witness for C7 with the invalid zone name `Mars/Olympus`. -/
theorem invalid_timezone_falls_back_witness :
    resolve_tz cenvOk (some ("Mars/Olympus")) = none ∧
    extract_scheduling_info cenvOk ("meet Bob") (some ("Mars/Olympus")) =
      extract_scheduling_info cenvOk ("meet Bob") none :=
  invalid_timezone_falls_back cenvOk ("meet Bob") ("Mars/Olympus") rfl

/-- Merging the joining space into the `with` connective. -/
theorem space_with_append (z : String) :
    (" ") ++ (("with ") ++ z) = (" with ") ++ z := by
  rw [← String.append_assoc]
  have h : (" ") ++ ("with ") = (" with ") := by decide
  rw [h]

/-- Merging the joining space into the `at` connective. -/
theorem space_at_append (z : String) :
    (" ") ++ (("at ") ++ z) = (" at ") ++ z := by
  rw [← String.append_assoc]
  have h : (" ") ++ ("at ") = (" at ") := by decide
  rw [h]

/-- Claim C8, counterexample: with no noun tokens but a person entity, the
claimed composition (empty core title, then a literal ` with ` connective)
would give ` with John` with a leading space, but the `" ".join` of the code
gives `with John` — the claim as stated fails there. -/
theorem title_without_core_drops_leading_space :
    (extract_ok cenvOk ("x") none ⟨[], [⟨"John", "PERSON"⟩]⟩).suggested_title =
        "with John" ∧
      (extract_ok cenvOk ("x") none ⟨[], [⟨"John", "PERSON"⟩]⟩).suggested_title ≠
        joinSep (" ") ((nounsOf ⟨[], [⟨"John", "PERSON"⟩]⟩).take 3) ++
          (if peopleOf (⟨[], [⟨"John", "PERSON"⟩]⟩ : NlpDoc) ≠ [] then
              (" with ") ++ joinSep (", ") (peopleOf ⟨[], [⟨"John", "PERSON"⟩]⟩)
            else "") ++
          (if placesOf (⟨[], [⟨"John", "PERSON"⟩]⟩ : NlpDoc) ≠ [] then
              (" at ") ++ joinSep (", ") (placesOf ⟨[], [⟨"John", "PERSON"⟩]⟩)
            else "") := by
  refine ⟨by decide, by decide⟩

/-- Claim C8, amended: when noun tokens were found, the title is the core
title (first at most three noun tokens joined by spaces), then ` with `
plus the comma-joined people if any, then ` at ` plus the comma-joined
places if any, in that fixed order.  When no noun tokens were found the
leading separator is dropped: with people present the title starts with
`with ` directly (followed by ` at {places}` if any), with only places it
starts with `at `, and with no nouns, people or places it is the literal
`"Reminder"`. -/
theorem title_composition (env : Env) (text : String) (tz : Option String)
    (doc : NlpDoc) :
    (nounsOf doc ≠ [] →
      (extract_ok env text tz doc).suggested_title =
        joinSep (" ") ((nounsOf doc).take 3) ++
          (if peopleOf doc ≠ [] then (" with ") ++ joinSep (", ") (peopleOf doc)
            else "") ++
          (if placesOf doc ≠ [] then (" at ") ++ joinSep (", ") (placesOf doc)
            else "")) ∧
    (nounsOf doc = [] → peopleOf doc ≠ [] →
      (extract_ok env text tz doc).suggested_title =
        ("with ") ++ joinSep (", ") (peopleOf doc) ++
          (if placesOf doc ≠ [] then (" at ") ++ joinSep (", ") (placesOf doc)
            else "")) ∧
    (nounsOf doc = [] → peopleOf doc = [] → placesOf doc ≠ [] →
      (extract_ok env text tz doc).suggested_title =
        ("at ") ++ joinSep (", ") (placesOf doc)) ∧
    (nounsOf doc = [] → peopleOf doc = [] → placesOf doc = [] →
      (extract_ok env text tz doc).suggested_title = "Reminder") := by
  refine ⟨?_, ?_, ?_, ?_⟩
  · intro hn
    rcases hN : nounsOf doc with _ | ⟨n, ns⟩
    · exact absurd hN hn
    · rcases hP : peopleOf doc with _ | ⟨p, ps⟩ <;>
        rcases hA : placesOf doc with _ | ⟨a, as⟩ <;>
        simp [extract_ok, hN, hP, hA, joinSep, String.append_assoc,
          space_with_append, space_at_append]
  · intro hn hp
    rcases hP : peopleOf doc with _ | ⟨p, ps⟩
    · exact absurd hP hp
    · rcases hA : placesOf doc with _ | ⟨a, as⟩ <;>
        simp [extract_ok, hn, hP, hA, joinSep, String.append_assoc,
          space_at_append]
  · intro hn hp hpl
    rcases hA : placesOf doc with _ | ⟨a, as⟩
    · exact absurd hA hpl
    · simp [extract_ok, hn, hp, hA, joinSep]
  · intro h1 h2 h3
    simp [extract_ok, h1, h2, h3]

/-- Witness for C8 amended: one noun, one person and one place exercise the
full composition, and the same entities without any noun exercise the
dropped leading separator. -/
theorem title_composition_witness :
    nounsOf ⟨[⟨"gym", "NOUN"⟩], [⟨"John", "PERSON"⟩, ⟨"Paris", "GPE"⟩]⟩ ≠ [] ∧
    (extract_ok cenvOk ("meet") none
        ⟨[⟨"gym", "NOUN"⟩], [⟨"John", "PERSON"⟩, ⟨"Paris", "GPE"⟩]⟩).suggested_title =
      "gym with John at Paris" ∧
    (extract_ok cenvOk ("meet") none
        ⟨[], [⟨"John", "PERSON"⟩, ⟨"Paris", "GPE"⟩]⟩).suggested_title =
      "with John at Paris" :=
  ⟨by decide,
   ((title_composition cenvOk ("meet") none
      ⟨[⟨"gym", "NOUN"⟩], [⟨"John", "PERSON"⟩, ⟨"Paris", "GPE"⟩]⟩).1
      (by decide)).trans (by decide),
   ((title_composition cenvOk ("meet") none
      ⟨[], [⟨"John", "PERSON"⟩, ⟨"Paris", "GPE"⟩]⟩).2.1
      (by decide) (by decide)).trans (by decide)⟩

/-- Head of the filtered vocabulary when every listed phrase maps to the same
date and at least one of them occurs. -/
theorem head_filter_mapped (f : String → Bool) (d : Int) :
    ∀ (vs : List String) (rest : List (String × Int)), vs.any f = true →
      (((vs.map (fun v => (v, d))) ++ rest).filter
          (fun p => f p.1)).head?.map Prod.snd = some d := by
  intro vs
  induction vs with
  | nil => intro rest h; simp at h
  | cons v vs ih =>
    intro rest h
    by_cases hv : f v = true
    · simp [hv]
    · have hb : f v = false := by simpa using hv
      simp only [List.map_cons, List.cons_append, List.filter_cons, hb,
        Bool.false_eq_true, if_false]
      simp only [List.any_cons, hb, Bool.false_or] at h
      exact ih rest h

/-- Claim C9, counterexample: a recognized misspelling of tomorrow occurring
as a whole word does not force `detected_date` to be anchor + 1 day — an
earlier vocabulary entry (`today`) or an accepted absolute date wins the
head of the candidate list. -/
theorem misspelled_tomorrow_not_always_next_day :
    (foundWord (("tmrw").toList) none (lowerChars ("today tmrw")) = true ∧
      (extract_ok cenvOk ("today tmrw") none ⟨[], []⟩).detected_date = some 0 ∧
      (0 : Int) ≠ cenvOk.now_in (resolve_tz cenvOk none) + oneDay) ∧
    (foundWord (("tmrw").toList) none (lowerChars ("1/2/23 tmrw")) = true ∧
      (extract_ok cenvParse ("1/2/23 tmrw") none ⟨[], []⟩).detected_date =
        some 999 ∧
      (999 : Int) ≠ cenvParse.now_in (resolve_tz cenvParse none) + oneDay) := by
  refine ⟨⟨by decide, by decide, by decide⟩, by decide, by decide, by decide⟩

/-- Claim C9, amended: if a recognized misspelling of tomorrow occurs as a
whole word, no absolute-pass candidate was accepted, and `today` does not
also occur as a whole word, then `detected_date` is the anchor instant plus
one day and confidence is at least `0.5`; in particular this holds for the
input `tmrw meeting`. -/
theorem tomorrow_misspelling_detected (env : Env) (text : String)
    (tz : Option String) (doc : NlpDoc)
    (habs : absoluteMatches env.parse_date text = [])
    (htoday : foundWordS ("today") (lowerChars text) = false)
    (hvar : tomorrowVariants.any
      (fun v => foundWordS v (lowerChars text)) = true) :
    (extract_ok env text tz doc).detected_date =
        some (env.now_in (resolve_tz env tz) + oneDay) ∧
      (1:ℚ)/2 ≤ (extract_ok env text tz doc).confidence := by
  have hdd : (extract_ok env text tz doc).detected_date =
      (dateEntities env.parse_date text
        (env.now_in (resolve_tz env tz))).head?.map Prod.snd := rfl
  have h1 : (dateEntities env.parse_date text
      (env.now_in (resolve_tz env tz))).head?.map Prod.snd =
      some (env.now_in (resolve_tz env tz) + oneDay) := by
    have hdates : dateEntities env.parse_date text
        (env.now_in (resolve_tz env tz)) =
        ((tomorrowVariants.map
            (fun v => (v, env.now_in (resolve_tz env tz) + oneDay))) ++
          [(("yesterday"), env.now_in (resolve_tz env tz) - oneDay),
           (("yesturday"), env.now_in (resolve_tz env tz) - oneDay),
           (("next week"), env.now_in (resolve_tz env tz) + 7 * oneDay),
           (("next month"), env.now_in (resolve_tz env tz) + 30 * oneDay)]).filter
          (fun p => foundWordS p.1 (lowerChars text)) := by
      simp [dateEntities, habs, relativeMatches, relativeVocab, htoday]
    rw [hdates]
    exact head_filter_mapped
      (fun v => foundWordS v (lowerChars text))
      (env.now_in (resolve_tz env tz) + oneDay) tomorrowVariants _ hvar
  refine ⟨hdd.trans h1, ?_⟩
  have hne : dateEntities env.parse_date text
      (env.now_in (resolve_tz env tz)) ≠ [] := by
    intro hnil
    rw [hnil] at h1
    simp at h1
  rw [extract_ok_confidence_eq]
  rcases hc : dateEntities env.parse_date text
      (env.now_in (resolve_tz env tz)) with _ | ⟨x, xs⟩
  · exact absurd hc hne
  · simp only [List.isEmpty_cons, Bool.false_eq_true, if_false]
    split <;> norm_num

/-- Witness for C9 amended, for the input `tmrw meeting`. -/
theorem tomorrow_misspelling_detected_witness :
    absoluteMatches cenvOk.parse_date ("tmrw meeting") = [] ∧
    ((extract_ok cenvOk ("tmrw meeting") none ⟨[], []⟩).detected_date =
        some (cenvOk.now_in (resolve_tz cenvOk none) + oneDay) ∧
      (1:ℚ)/2 ≤ (extract_ok cenvOk ("tmrw meeting") none ⟨[], []⟩).confidence) :=
  ⟨by decide,
   tomorrow_misspelling_detected cenvOk ("tmrw meeting") none ⟨[], []⟩
     (by decide) (by decide) (by decide)⟩

end SpeakNote
